import Mathlib

/-! Engine.IO packet codec (`engine.io/packet.go`)

A shallow embedding of the packet framing layer: the packet kinds and their
wire identifiers, the `Packet` value, and the two codec operations `WriteTo`
and `ReadFrom`, followed by theorems about them.

Modelling conventions
* A Go `byte` is a `Fin 256`; a Go `int8` / `int64` is an `Int`.  The only
  arithmetic in the file is `n++` and `n += len`, on counts bounded by the
  length of an in-memory byte slice, so no wrap-around can occur.
* A Go `error` is `Option GoError`, `none` being `nil`.
* `io.Reader` and `io.Writer` are explicit states that the operations thread
  through, so that what was consumed or written can be observed.
* `panic(v)` is the `panicked` outcome of `Outcome`.
* The package `internal/utils` is not among the sources.  Its three helpers
  are modelled from the specification; what `utils.ReadAllTo` returns as the
  buffer of a failed read is stated nowhere and is a parameter, `kept`, of
  `ReadFrom`.
-/

namespace Engine

/-- A Go `byte`. -/
abbrev Byte := Fin 256

/-- The Go type `PacketType` (`type PacketType int8`). -/
structure PacketType where
  val : Int
  deriving DecidableEq, Repr

/-- The Go type `UnexpectedPacketTypeError`, with its single field `Type`. -/
structure UnexpectedPacketTypeError where
  «Type» : PacketType
  deriving DecidableEq, Repr

/-- A Go `error` value other than `nil`: `io.EOF`, some other error produced
by a byte source or sink (told apart by a tag), or a pointer to an
`UnexpectedPacketTypeError`. -/
inductive GoError where
  | EOF
  | other (tag : Nat)
  | unexpectedPacketType (e : UnexpectedPacketTypeError)
  deriving DecidableEq, Repr

/-! ## The constant block

```go
const (
	unknownType PacketType = -1
	OPEN        PacketType = iota
	CLOSE
	...
)
```
`iota` is the index of the line inside the block, so it is `1` on the line
of `OPEN`, and each following line repeats `PacketType = iota`. -/

def unknownType : PacketType := ⟨-1⟩
def OPEN : PacketType := ⟨1⟩
def CLOSE : PacketType := ⟨2⟩
def PING : PacketType := ⟨3⟩
def PONG : PacketType := ⟨4⟩
def MESSAGE : PacketType := ⟨5⟩
def UPGRADE : PacketType := ⟨6⟩
def NOOP : PacketType := ⟨7⟩

/-- The seven legal kinds, in declaration order. -/
def legalKinds : List PacketType := [OPEN, CLOSE, PING, PONG, MESSAGE, UPGRADE, NOOP]

/-- The result of running a Go function that can panic with an
`UnexpectedPacketTypeError`. -/
inductive Outcome (α : Type) where
  | returned (a : α)
  | panicked (v : UnexpectedPacketTypeError)
  deriving DecidableEq, Repr

/-- The method `PacketType.ID`: the `switch` over the seven constants, and the
`panic` after it. -/
def PacketType.ID (t : PacketType) : Outcome Byte :=
  if t = OPEN then .returned 48
  else if t = CLOSE then .returned 49
  else if t = PING then .returned 50
  else if t = PONG then .returned 51
  else if t = MESSAGE then .returned 52
  else if t = UPGRADE then .returned 53
  else if t = NOOP then .returned 54
  else .panicked ⟨t⟩

/-- The function `pktTypeFromByte`. -/
def pktTypeFromByte (id : Byte) : PacketType :=
  if id = 48 then OPEN
  else if id = 49 then CLOSE
  else if id = 50 then PING
  else if id = 51 then PONG
  else if id = 52 then MESSAGE
  else if id = 53 then UPGRADE
  else if id = 54 then NOOP
  else unknownType

/-- The verb `%d` of `fmt.Sprintf` applied to an integer: its decimal digits,
after a minus sign when it is negative. -/
def fmtDecimal (v : Int) : String :=
  if v < 0 then "-" ++ Nat.repr v.natAbs else Nat.repr v.natAbs

/-- The method `PacketType.String`: the `switch` over the seven constants, and
the `fmt.Sprintf("PacketType(%d)", (int8)(t))` after it. -/
def PacketType.String (t : PacketType) : String :=
  if t = OPEN then "OPEN"
  else if t = CLOSE then "CLOSE"
  else if t = PING then "PING"
  else if t = PONG then "PONG"
  else if t = MESSAGE then "MESSAGE"
  else if t = UPGRADE then "UPGRADE"
  else if t = NOOP then "NOOP"
  else "PacketType(" ++ fmtDecimal t.val ++ ")"

/-! ## Byte slices

A Go `[]byte` seen through one slice header: the `len` visible bytes, and the
cells of the backing array between `len` and `cap`, which keep whatever was
stored there before. -/

/-- A Go byte slice: `bytes` are the elements `s[0:len(s)]`, `spare` the
content of the backing array in `s[len(s):cap(s)]`. -/
structure Slice where
  bytes : List Byte
  spare : List Byte
  deriving DecidableEq, Repr

namespace Slice

/-- The `nil` slice. -/
def nil : Slice := ⟨[], []⟩

/-- A slice holding `bs` with no spare capacity. -/
def ofList (bs : List Byte) : Slice := ⟨bs, []⟩

/-- The Go builtin `len`. -/
def len (s : Slice) : Nat := s.bytes.length

/-- The Go builtin `cap`. -/
def cap (s : Slice) : Nat := s.bytes.length + s.spare.length

/-- The slice expression `s[:0]`: length zero, same backing array, so that
the former elements become spare cells. -/
def resliceZero (s : Slice) : Slice := ⟨[], s.bytes ++ s.spare⟩

/-- Storing `d` after the last element, as `append(s, d...)` does: in place
over the spare cells when they suffice, in a fresh array otherwise. -/
def append (s : Slice) (d : List Byte) : Slice :=
  if d.length ≤ s.spare.length then ⟨s.bytes ++ d, s.spare.drop d.length⟩
  else ⟨s.bytes ++ d, []⟩

end Slice

/-! ## Byte sources and sinks -/

/-- An `io.Reader`: the bytes it still has to yield, and the error it returns
once they are exhausted (`io.EOF` for a clean end of stream). -/
structure Reader where
  data : List Byte
  fin : GoError
  deriving DecidableEq, Repr

/-- A source that yields `bs` and then a clean end of stream. -/
def Reader.ofBytes (bs : List Byte) : Reader := ⟨bs, .EOF⟩

/-- An `io.Writer`: the bytes it has accepted (`out`), the argument of every
`Write` call made on it (`calls`), and how it answers the coming calls
(`script`): `none` accepts the whole argument, `some (k, e)` accepts at most
`k` bytes and returns the error `e`.  Once the script is exhausted every
write is accepted. -/
structure Writer where
  out : List Byte
  calls : List (List Byte)
  script : List (Option (Nat × GoError))
  deriving DecidableEq, Repr

/-- A fresh sink that accepts every write. -/
def Writer.accepting : Writer := ⟨[], [], []⟩

/-- The method `Write` of an `io.Writer`: the count, the error, and the sink
afterwards. -/
def Writer.Write (w : Writer) (p : List Byte) : (Nat × Option GoError) × Writer :=
  match w.script with
  | [] => ((p.length, none), ⟨w.out ++ p, w.calls ++ [p], []⟩)
  | none :: rest => ((p.length, none), ⟨w.out ++ p, w.calls ++ [p], rest⟩)
  | some (k, e) :: rest =>
    (((p.take k).length, some e), ⟨w.out ++ p.take k, w.calls ++ [p], rest⟩)

/-- Modelled from the spec: `utils.WriteByte` of `internal/utils`, which is
not among the sources.  It writes the single byte `b` to the sink and returns
the sink's error (section 4.3: "writes exactly one identifier byte"; section
7: an error of the sink is "propagated unchanged"). -/
def WriteByte (w : Writer) (b : Byte) : Option GoError × Writer :=
  let r := w.Write [b]
  (r.1.2, r.2)

/-- Modelled from the spec: `utils.ReadByte` of `internal/utils`, which is
not among the sources.  It reads exactly one byte; when the source has none
it returns the source's error unchanged, `io.EOF` included (section 4.4,
step 1). -/
def ReadByte (r : Reader) : (Byte × Option GoError) × Reader :=
  match r.data with
  | [] => ((0, some r.fin), r)
  | b :: rest => ((b, none), ⟨rest, r.fin⟩)

/-- What `utils.ReadAllTo` keeps of a failed read.  When the source fails
before a clean end of stream, neither the sources nor the specification say
what the returned buffer holds, so the codec is studied for every behaviour:
given the bytes read before the failure and the error, a `KeptOnError` gives
the bytes that are stored after the last element of the buffer.  They do not
depend on the former content of the buffer (section 8: the body's "logical
length matches only the newly read bytes"). -/
abbrev KeptOnError := List Byte → GoError → List Byte

/-- The behaviour of `io.ReadAll`: the bytes read before the failure are
kept. -/
def keepRead : KeptOnError := fun d _ => d

/-- The buffer is returned as it was handed in: no byte of a failed read is
kept. -/
def keepNothing : KeptOnError := fun _ _ => []

/-- Modelled from the spec: `utils.ReadAllTo` of `internal/utils`, which is
not among the sources.  It reads all the remaining bytes of the source; on a
clean end of stream it ends without error, having stored them after the last
element of `buf`, whose storage it reuses (section 4.4, step 3, and section
8: a frame with no body "must succeed with an empty body"); any other error
of the source is returned unchanged (section 4.4, "Errors"), with the buffer
that `kept` describes. -/
def ReadAllTo (kept : KeptOnError) (r : Reader) (buf : Slice) :
    (Slice × Option GoError) × Reader :=
  if r.fin = .EOF then ((buf.append r.data, none), ⟨[], r.fin⟩)
  else ((buf.append (kept r.data r.fin), some r.fin), ⟨[], r.fin⟩)

/-! ## Packets -/

/-- The Go struct `Packet`. -/
structure Packet where
  typ : PacketType
  body : Slice
  deriving DecidableEq, Repr

/-- The method `Packet.Type`. -/
def Packet.Type (p : Packet) : PacketType := p.typ

/-- The method `Packet.String`:
`fmt.Sprintf("Packet(%s, <%d bytes>)", p.typ.String(), len(p.body))`. -/
def Packet.String (p : Packet) : String :=
  "Packet(" ++ p.typ.String ++ ", <" ++ fmtDecimal (p.body.len : Int) ++ " bytes>)"

/-- The method `Packet.Body`. -/
def Packet.Body (p : Packet) : Slice := p.body

/-- The method `Packet.SetBody`. -/
def Packet.SetBody (p : Packet) (body : Slice) : Packet := { p with body := body }

/-- What `WriteTo` returns: the named results `n` and `err`. -/
structure WriteResult where
  n : Int
  err : Option GoError
  deriving DecidableEq, Repr

/-- The method `Packet.WriteTo`, with the sink as it is left.  The argument
`p.typ.ID()` is evaluated before `utils.WriteByte` is called, so a panic of
`ID` leaves the sink as it was. -/
def Packet.WriteTo (p : Packet) (w : Writer) : Outcome WriteResult × Writer :=
  match p.typ.ID with
  | .panicked v => (.panicked v, w)
  | .returned id =>
    let n : Int := 0
    let r := WriteByte w id
    let err := r.1
    let w := r.2
    if err ≠ none then (.returned ⟨n, err⟩, w)
    else
      let n := n + 1
      let r := w.Write p.body.bytes
      let n0 := r.1.1
      let err := r.1.2
      let w := r.2
      let n := n + (n0 : Int)
      (.returned ⟨n, err⟩, w)

/-- What `ReadFrom` leaves: the named results `n` and `err`, the receiving
packet `p` and the source `r` after the call. -/
structure ReadResult where
  n : Int
  err : Option GoError
  p : Packet
  r : Reader
  deriving DecidableEq, Repr

/-- The method `Packet.ReadFrom`; `kept` is the behaviour of the absent
`utils.ReadAllTo` on a failed read. -/
def Packet.ReadFrom (kept : KeptOnError) (p : Packet) (r : Reader) : ReadResult :=
  let n : Int := 0
  let rb := ReadByte r
  let b := rb.1.1
  let err := rb.1.2
  let r := rb.2
  if err ≠ none then ⟨n, err, p, r⟩
  else
    let n := n + 1
    let typ := pktTypeFromByte b
    if typ = unknownType then ⟨n, some (.unexpectedPacketType ⟨typ⟩), p, r⟩
    else
      let p := { p with typ := typ }
      let ra := ReadAllTo kept r p.body.resliceZero
      let p := { p with body := ra.1.1 }
      let err := ra.1.2
      let r := ra.2
      let n := n + (p.body.len : Int)
      ⟨n, err, p, r⟩

/-- A byte is an identifier byte when it is one of the ASCII digits `'0'` to
`'6'`. -/
def isIdByte (b : Byte) : Prop := 48 ≤ b.val ∧ b.val ≤ 54

instance (b : Byte) : Decidable (isIdByte b) := by
  unfold isIdByte; infer_instance

/-! ## Concrete evaluations -/

example : MESSAGE.ID = .returned 52 := by decide
example : pktTypeFromByte 52 = MESSAGE := by decide
example : (Packet.WriteTo ⟨MESSAGE, .ofList [104, 105]⟩ .accepting).2.out = [52, 104, 105] := by
  decide
example : (Packet.ReadFrom keepRead ⟨OPEN, .ofList [1, 2, 3]⟩ (.ofBytes [52, 104, 105])).p
    = ⟨MESSAGE, ⟨[104, 105], [3]⟩⟩ := by decide
example : (Packet.ReadFrom keepRead ⟨OPEN, .nil⟩ (.ofBytes [57])).err
    = some (.unexpectedPacketType ⟨unknownType⟩) := by decide
example : unknownType.String = "PacketType(-1)" := by decide
example : (Packet.String ⟨MESSAGE, .ofList [1, 2, 3, 4, 5, 6, 7, 8, 9, 10, 11, 12]⟩)
    = "Packet(MESSAGE, <12 bytes>)" := by decide


/-! ## Lemmas on the identifier mapping -/

theorem pktTypeFromByte_eq_unknownType_iff (b : Byte) :
    pktTypeFromByte b = unknownType ↔ ¬ isIdByte b := by
  unfold pktTypeFromByte isIdByte
  split_ifs with h0 h1 h2 h3 h4 h5 h6
  · subst h0; decide
  · subst h1; decide
  · subst h2; decide
  · subst h3; decide
  · subst h4; decide
  · subst h5; decide
  · subst h6; decide
  · have e0 : b.val ≠ 48 := fun h => h0 (Fin.ext h)
    have e1 : b.val ≠ 49 := fun h => h1 (Fin.ext h)
    have e2 : b.val ≠ 50 := fun h => h2 (Fin.ext h)
    have e3 : b.val ≠ 51 := fun h => h3 (Fin.ext h)
    have e4 : b.val ≠ 52 := fun h => h4 (Fin.ext h)
    have e5 : b.val ≠ 53 := fun h => h5 (Fin.ext h)
    have e6 : b.val ≠ 54 := fun h => h6 (Fin.ext h)
    constructor
    · intro _ h; omega
    · intro _; trivial

theorem isIdByte_cases (b : Byte) (h : isIdByte b) :
    b = 48 ∨ b = 49 ∨ b = 50 ∨ b = 51 ∨ b = 52 ∨ b = 53 ∨ b = 54 := by
  obtain ⟨h1, h2⟩ := h
  have : b.val = 48 ∨ b.val = 49 ∨ b.val = 50 ∨ b.val = 51 ∨ b.val = 52 ∨ b.val = 53
      ∨ b.val = 54 := by omega
  rcases this with h | h | h | h | h | h | h
  · exact Or.inl (Fin.ext h)
  · exact Or.inr (Or.inl (Fin.ext h))
  · exact Or.inr (Or.inr (Or.inl (Fin.ext h)))
  · exact Or.inr (Or.inr (Or.inr (Or.inl (Fin.ext h))))
  · exact Or.inr (Or.inr (Or.inr (Or.inr (Or.inl (Fin.ext h)))))
  · exact Or.inr (Or.inr (Or.inr (Or.inr (Or.inr (Or.inl (Fin.ext h))))))
  · exact Or.inr (Or.inr (Or.inr (Or.inr (Or.inr (Or.inr (Fin.ext h))))))

theorem ID_pktTypeFromByte (b : Byte) (h : isIdByte b) :
    pktTypeFromByte b ∈ legalKinds ∧ (pktTypeFromByte b).ID = .returned b := by
  rcases isIdByte_cases b h with rfl | rfl | rfl | rfl | rfl | rfl | rfl <;> decide

theorem ID_of_legal (K : PacketType) (hK : K ∈ legalKinds) :
    ∃ b : Byte, K.ID = .returned b ∧ isIdByte b ∧ pktTypeFromByte b = K
      ∧ (b.val : Int) = 48 + (K.val - OPEN.val) := by
  simp only [legalKinds, List.mem_cons, List.mem_singleton, List.not_mem_nil, or_false] at hK
  rcases hK with rfl | rfl | rfl | rfl | rfl | rfl | rfl
  · exact ⟨48, by decide⟩
  · exact ⟨49, by decide⟩
  · exact ⟨50, by decide⟩
  · exact ⟨51, by decide⟩
  · exact ⟨52, by decide⟩
  · exact ⟨53, by decide⟩
  · exact ⟨54, by decide⟩

/-! ## Lemmas on slices, `WriteTo` and `ReadFrom` -/

theorem Slice.bytes_append (s : Slice) (d : List Byte) : (s.append d).bytes = s.bytes ++ d := by
  unfold Slice.append; split_ifs <;> rfl

theorem Slice.bytes_resliceZero_append (s : Slice) (d : List Byte) :
    (s.resliceZero.append d).bytes = d := by
  rw [Slice.bytes_append]; rfl

/-- Writing a packet whose identifier is `id` to a sink that accepts every
write. -/
theorem WriteTo_of_ID (p : Packet) (id : Byte) (h : p.typ.ID = .returned id)
    (out : List Byte) (calls : List (List Byte)) :
    p.WriteTo ⟨out, calls, []⟩
      = (.returned ⟨1 + (p.body.len : Int), none⟩,
          ⟨out ++ id :: p.body.bytes, calls ++ [[id], p.body.bytes], []⟩) := by
  simp [Packet.WriteTo, h, WriteByte, Writer.Write, Slice.len]

/-- Decoding from a source with no byte left. -/
theorem ReadFrom_nil (kept : KeptOnError) (p : Packet) (fin : GoError) :
    p.ReadFrom kept ⟨[], fin⟩ = ⟨0, some fin, p, ⟨[], fin⟩⟩ := by
  simp [Packet.ReadFrom, ReadByte]

/-- Decoding from a source whose first byte is no identifier. -/
theorem ReadFrom_cons_of_not_isIdByte (kept : KeptOnError)
    (p : Packet) (b : Byte) (h : ¬ isIdByte b)
    (rest : List Byte) (fin : GoError) :
    p.ReadFrom kept ⟨b :: rest, fin⟩
      = ⟨1, some (.unexpectedPacketType ⟨unknownType⟩), p, ⟨rest, fin⟩⟩ := by
  have hu := (pktTypeFromByte_eq_unknownType_iff b).2 h
  simp [Packet.ReadFrom, ReadByte, hu]

/-- Decoding from a source whose first byte is an identifier: the bytes left
in the body are all those that follow when the source ends cleanly, and
those that `kept` describes when it fails. -/
theorem ReadFrom_cons_of_isIdByte (kept : KeptOnError) (p : Packet) (b : Byte)
    (h : isIdByte b) (B : List Byte) (fin : GoError) :
    p.ReadFrom kept ⟨b :: B, fin⟩
      = ⟨1 + (((if fin = .EOF then B else kept B fin).length : Nat) : Int),
          if fin = .EOF then none else some fin,
          ⟨pktTypeFromByte b,
            p.body.resliceZero.append (if fin = .EOF then B else kept B fin)⟩,
          ⟨[], fin⟩⟩ := by
  have hu : pktTypeFromByte b ≠ unknownType :=
    fun e => (pktTypeFromByte_eq_unknownType_iff b).1 e h
  by_cases hf : fin = .EOF
  · simp [Packet.ReadFrom, ReadByte, hu, ReadAllTo, Slice.len, Slice.bytes_append,
      Slice.resliceZero, hf]
  · simp [Packet.ReadFrom, ReadByte, hu, ReadAllTo, Slice.len, Slice.bytes_append,
      Slice.resliceZero, hf]

/-- Decoding from a source whose first byte is an identifier and that ends
cleanly. -/
theorem ReadFrom_cons_of_isIdByte_EOF (kept : KeptOnError) (p : Packet) (b : Byte)
    (h : isIdByte b) (B : List Byte) :
    p.ReadFrom kept ⟨b :: B, .EOF⟩
      = ⟨1 + (B.length : Int), none,
          ⟨pktTypeFromByte b, p.body.resliceZero.append B⟩, ⟨[], .EOF⟩⟩ := by
  rw [ReadFrom_cons_of_isIdByte kept p b h B .EOF]
  simp


/-! ## The identifier mapping (C3, C4, C5) -/

/-- C3: `PacketType.ID` returns the fixed wire identifiers OPEN -> '0' (0x30),
CLOSE -> '1', PING -> '2', PONG -> '3', MESSAGE -> '4', UPGRADE -> '5',
NOOP -> '6' (0x36), the ASCII digits in declaration order: for every legal
kind `K`, `ID(K)` is the byte `'0' + (K - OPEN)`. -/
theorem ID_fixed_wire_identifiers :
    OPEN.ID = .returned 0x30 ∧ CLOSE.ID = .returned 0x31 ∧ PING.ID = .returned 0x32
      ∧ PONG.ID = .returned 0x33 ∧ MESSAGE.ID = .returned 0x34
      ∧ UPGRADE.ID = .returned 0x35 ∧ NOOP.ID = .returned 0x36
      ∧ ∀ K ∈ legalKinds, ∃ b : Byte, K.ID = .returned b
          ∧ (b.val : Int) = 0x30 + (K.val - OPEN.val) := by
  refine ⟨by decide, by decide, by decide, by decide, by decide, by decide, by decide, ?_⟩
  intro K hK
  obtain ⟨b, h1, _, _, h4⟩ := ID_of_legal K hK
  exact ⟨b, h1, h4⟩

/-- Witness of C3 at the kind PONG. -/
theorem ID_fixed_wire_identifiers_witness :
    PONG ∈ legalKinds ∧ ∃ b : Byte, PONG.ID = .returned b
      ∧ (b.val : Int) = 0x30 + (PONG.val - OPEN.val) :=
  ⟨by decide, ID_fixed_wire_identifiers.2.2.2.2.2.2.2 PONG (by decide)⟩

/-- C4: the identifier mapping is a bijection between the legal kinds and the
ASCII digits '0'..'6': `ID` is injective on the seven legal kinds, a byte is
the identifier of a legal kind exactly when it is one of '0'..'6', and
`pktTypeFromByte(ID(K)) = K` for every legal kind `K`. -/
theorem ID_bijection :
    (∀ K₁ ∈ legalKinds, ∀ K₂ ∈ legalKinds, K₁.ID = K₂.ID → K₁ = K₂)
      ∧ (∀ b : Byte, (∃ K ∈ legalKinds, K.ID = .returned b) ↔ isIdByte b)
      ∧ (∀ K ∈ legalKinds, ∃ b : Byte, K.ID = .returned b ∧ pktTypeFromByte b = K) := by
  refine ⟨?_, ?_, ?_⟩
  · intro K₁ h₁ K₂ h₂ e
    obtain ⟨b₁, i₁, _, f₁, _⟩ := ID_of_legal K₁ h₁
    obtain ⟨b₂, i₂, _, f₂, _⟩ := ID_of_legal K₂ h₂
    rw [i₁, i₂] at e
    have hb : b₁ = b₂ := by injection e
    rw [← f₁, ← f₂, hb]
  · intro b
    constructor
    · rintro ⟨K, hK, e⟩
      obtain ⟨b', i', hid, _, _⟩ := ID_of_legal K hK
      rw [i'] at e
      have hb : b' = b := by injection e
      exact hb ▸ hid
    · intro hb
      exact ⟨pktTypeFromByte b, (ID_pktTypeFromByte b hb).1, (ID_pktTypeFromByte b hb).2⟩
  · intro K hK
    obtain ⟨b, i, _, f, _⟩ := ID_of_legal K hK
    exact ⟨b, i, f⟩

/-- Witness of C4 at the kinds UPGRADE and NOOP. -/
theorem ID_bijection_witness :
    (UPGRADE.ID = NOOP.ID → UPGRADE = NOOP)
      ∧ ∃ b : Byte, UPGRADE.ID = .returned b ∧ pktTypeFromByte b = UPGRADE :=
  ⟨ID_bijection.1 UPGRADE (by decide) NOOP (by decide),
    ID_bijection.2.2 UPGRADE (by decide)⟩

/-- C5: `pktTypeFromByte` is the total inverse of `ID`: it is defined on every
byte; it returns the sentinel `unknownType` if and only if the byte is outside
'0'..'6' (so for '7', 'a' and 0x00); and for a byte `b` in '0'..'6' the result
is a legal kind with `ID(pktTypeFromByte(b)) = b`. -/
theorem pktTypeFromByte_total_inverse (b : Byte) :
    (∃ t : PacketType, pktTypeFromByte b = t)
      ∧ (pktTypeFromByte b = unknownType ↔ ¬ isIdByte b)
      ∧ (isIdByte b → pktTypeFromByte b ∈ legalKinds
          ∧ (pktTypeFromByte b).ID = .returned b)
      ∧ pktTypeFromByte 0x37 = unknownType ∧ pktTypeFromByte 0x61 = unknownType
      ∧ pktTypeFromByte 0x00 = unknownType :=
  ⟨⟨_, rfl⟩, pktTypeFromByte_eq_unknownType_iff b, ID_pktTypeFromByte b,
    by decide, by decide, by decide⟩

/-- Witness of C5 at the byte '4'. -/
theorem pktTypeFromByte_total_inverse_witness :
    isIdByte 0x34 ∧ pktTypeFromByte 0x34 ∈ legalKinds
      ∧ (pktTypeFromByte 0x34).ID = .returned 0x34 :=
  ⟨by decide, (pktTypeFromByte_total_inverse 0x34).2.2.1 (by decide)⟩

/-! ## Encoding (C2) -/

/-- C2: for every legal kind `K`, every body and every sink that accepts every
write, `WriteTo` returns `n = 1 + len(body)` with a nil error and appends to
the sink exactly the identifier byte `ID(K)` followed by the body, in two
writes; `Packet{MESSAGE, "hi"}` yields `['4','h','i']` with `n = 3` and
`Packet{NOOP, ""}` yields `['6']` with `n = 1`. -/
theorem WriteTo_wire_format (K : PacketType) (hK : K ∈ legalKinds) (body : Slice)
    (out : List Byte) (calls : List (List Byte)) :
    (∃ id : Byte, K.ID = .returned id
        ∧ Packet.WriteTo ⟨K, body⟩ ⟨out, calls, []⟩
          = (.returned ⟨1 + (body.len : Int), none⟩,
              ⟨out ++ id :: body.bytes, calls ++ [[id], body.bytes], []⟩))
      ∧ Packet.WriteTo ⟨MESSAGE, .ofList [0x68, 0x69]⟩ .accepting
          = (.returned ⟨3, none⟩, ⟨[0x34, 0x68, 0x69], [[0x34], [0x68, 0x69]], []⟩)
      ∧ Packet.WriteTo ⟨NOOP, .ofList []⟩ .accepting
          = (.returned ⟨1, none⟩, ⟨[0x36], [[0x36], []], []⟩) := by
  refine ⟨?_, by decide, by decide⟩
  obtain ⟨id, h, _⟩ := ID_of_legal K hK
  exact ⟨id, h, WriteTo_of_ID ⟨K, body⟩ id h out calls⟩

/-- Witness of C2: a PING packet with body `[1, 2]`, written to a sink that
already holds the byte `9`. -/
theorem WriteTo_wire_format_witness :
    PING ∈ legalKinds
      ∧ Packet.WriteTo ⟨PING, ⟨[1, 2], [7]⟩⟩ ⟨[9], [[9]], []⟩
          = (.returned ⟨3, none⟩, ⟨[9, 0x32, 1, 2], [[9], [0x32], [1, 2]], []⟩) := by
  refine ⟨by decide, ?_⟩
  obtain ⟨id, h, e⟩ := (WriteTo_wire_format PING (by decide) ⟨[1, 2], [7]⟩ [9] [[9]]).1
  have hid : id = 0x32 := by
    have h' : PING.ID = .returned 0x32 := by decide
    rw [h'] at h
    injection h with h
    exact h.symm
  subst hid
  rw [e]
  decide


/-! ## Decoding (C6, C7, C8, C9, C10) -/

/-- C6: for every byte `b` in '0'..'6', every byte sequence `B` and every prior
state of the receiving packet, `ReadFrom` over a source that yields `b`, then
`B`, then a clean end of stream returns a nil error and `n = 1 + len(B)`, and
leaves `Type() = pktTypeFromByte(b)` and a body equal to `B`; `['4','h','i']`
decodes to `Packet{MESSAGE, "hi"}` with `n = 3`. -/
theorem ReadFrom_success (kept : KeptOnError)
    (b : Byte) (hb : isIdByte b) (B : List Byte) (prior : Packet) :
    ((prior.ReadFrom kept (.ofBytes (b :: B))).err = none
        ∧ (prior.ReadFrom kept (.ofBytes (b :: B))).n = 1 + (B.length : Int)
        ∧ (prior.ReadFrom kept (.ofBytes (b :: B))).p.Type = pktTypeFromByte b
        ∧ (prior.ReadFrom kept (.ofBytes (b :: B))).p.Body.bytes = B)
      ∧ (prior.ReadFrom kept (.ofBytes [0x34, 0x68, 0x69])).err = none
      ∧ (prior.ReadFrom kept (.ofBytes [0x34, 0x68, 0x69])).n = 3
      ∧ (prior.ReadFrom kept (.ofBytes [0x34, 0x68, 0x69])).p.Type = MESSAGE
      ∧ (prior.ReadFrom kept (.ofBytes [0x34, 0x68, 0x69])).p.Body.bytes = [0x68, 0x69] := by
  have hm : isIdByte 0x34 := by decide
  have tm : pktTypeFromByte 0x34 = MESSAGE := by decide
  simp only [Reader.ofBytes, ReadFrom_cons_of_isIdByte kept _ b hb,
    ReadFrom_cons_of_isIdByte kept _ 0x34 hm, Packet.Type, Packet.Body,
    Slice.bytes_resliceZero_append, tm]
  simp

/-- Witness of C6: the frame `['2', 7, 8, 9]` decoded into a packet that held
the kind NOOP and a five-byte body. -/
theorem ReadFrom_success_witness :
    isIdByte 0x32
      ∧ (Packet.ReadFrom keepRead
          ⟨NOOP, ⟨[1, 2, 3, 4, 5], []⟩⟩ (.ofBytes [0x32, 7, 8, 9])).err = none
      ∧ (Packet.ReadFrom keepRead ⟨NOOP, ⟨[1, 2, 3, 4, 5], []⟩⟩ (.ofBytes [0x32, 7, 8, 9])).n
          = 1 + (([7, 8, 9] : List Byte).length : Int)
      ∧ (Packet.ReadFrom keepRead ⟨NOOP, ⟨[1, 2, 3, 4, 5], []⟩⟩ (.ofBytes [0x32, 7, 8, 9])).p.Type
          = pktTypeFromByte 0x32
      ∧ (Packet.ReadFrom keepRead
          ⟨NOOP, ⟨[1, 2, 3, 4, 5], []⟩⟩ (.ofBytes [0x32, 7, 8, 9])).p.Body.bytes
          = [7, 8, 9] :=
  ⟨by decide,
    (ReadFrom_success keepRead 0x32 (by decide) [7, 8, 9] ⟨NOOP, ⟨[1, 2, 3, 4, 5], []⟩⟩).1⟩

/-- C7: for every byte `b` outside '0'..'6', whatever follows it in the source
and whatever the source ends with, `ReadFrom` fails with an
`UnexpectedPacketTypeError` (the error is not nil and the receiving packet
gets no kind in place of the unknown one), returns `n = 1`, and has consumed
exactly that one byte: the source still holds every byte after it. -/
theorem ReadFrom_rejects_unknown_identifier (kept : KeptOnError) (b : Byte) (hb : ¬ isIdByte b)
    (rest : List Byte) (fin : GoError) (prior : Packet) :
    (∃ e : UnexpectedPacketTypeError,
        (prior.ReadFrom kept ⟨b :: rest, fin⟩).err = some (.unexpectedPacketType e))
      ∧ (prior.ReadFrom kept ⟨b :: rest, fin⟩).err ≠ none
      ∧ (prior.ReadFrom kept ⟨b :: rest, fin⟩).n = 1
      ∧ (prior.ReadFrom kept ⟨b :: rest, fin⟩).r = ⟨rest, fin⟩
      ∧ (prior.ReadFrom kept ⟨b :: rest, fin⟩).p.Type = prior.Type := by
  rw [ReadFrom_cons_of_not_isIdByte kept prior b hb rest fin]
  exact ⟨⟨_, rfl⟩, by simp, rfl, rfl, rfl⟩

/-- Witness of C7: the input `['7', '4', 'h']`. -/
theorem ReadFrom_rejects_unknown_identifier_witness :
    ¬ isIdByte 0x37
      ∧ (Packet.ReadFrom keepRead ⟨PING, .nil⟩ ⟨[0x37, 0x34, 0x68], .EOF⟩).n = 1
      ∧ (Packet.ReadFrom keepRead
          ⟨PING, .nil⟩ ⟨[0x37, 0x34, 0x68], .EOF⟩).r = ⟨[0x34, 0x68], .EOF⟩ :=
  ⟨by decide,
    (ReadFrom_rejects_unknown_identifier keepRead 0x37 (by decide) [0x34, 0x68] .EOF
      ⟨PING, .nil⟩).2.2.1,
    (ReadFrom_rejects_unknown_identifier keepRead 0x37 (by decide) [0x34, 0x68] .EOF
      ⟨PING, .nil⟩).2.2.2.1⟩

/-- C8, as stated, fails: decoding `['9']` and decoding `['7']` return the same
error, whose `Type` field is the sentinel `unknownType`, of numeric value -1:
it is neither the byte '9' (0x39) nor the digit 9. -/
theorem ReadFrom_error_does_not_carry_byte :
    (Packet.ReadFrom keepRead ⟨OPEN, .nil⟩ (.ofBytes [0x39])).err
        = some (.unexpectedPacketType ⟨⟨-1⟩⟩)
      ∧ (Packet.ReadFrom keepRead ⟨OPEN, .nil⟩ (.ofBytes [0x37])).err
        = some (.unexpectedPacketType ⟨⟨-1⟩⟩)
      ∧ (-1 : Int) ≠ 0x39 ∧ (-1 : Int) ≠ 9 := by
  decide

/-- C8, amended: for every byte `b` outside '0'..'6', the error returned by
`ReadFrom` on an input starting with `b` is an `UnexpectedPacketTypeError`
whose `Type` field is the sentinel `unknownType` (numeric value -1), whatever
`b` is. -/
theorem ReadFrom_error_carries_unknownType (kept : KeptOnError) (b : Byte) (hb : ¬ isIdByte b)
    (rest : List Byte) (fin : GoError) (prior : Packet) :
    (prior.ReadFrom kept ⟨b :: rest, fin⟩).err = some (.unexpectedPacketType ⟨unknownType⟩)
      ∧ unknownType.val = -1 := by
  rw [ReadFrom_cons_of_not_isIdByte kept prior b hb rest fin]
  exact ⟨rfl, rfl⟩

/-- Witness of the amended C8 at the input `['a']`. -/
theorem ReadFrom_error_carries_unknownType_witness :
    ¬ isIdByte 0x61
      ∧ (Packet.ReadFrom keepRead ⟨OPEN, .nil⟩ ⟨[0x61], .EOF⟩).err
          = some (.unexpectedPacketType ⟨unknownType⟩) :=
  ⟨by decide,
    (ReadFrom_error_carries_unknownType keepRead 0x61 (by decide) [] .EOF ⟨OPEN, .nil⟩).1⟩

/-- C9: only the identifier byte is mandatory.  `ReadFrom` over an empty
source with a clean end of stream returns `io.EOF` itself with `n = 0`, which
is not an `UnexpectedPacketTypeError`; `ReadFrom` over a source holding
exactly one byte `b` in '0'..'6' succeeds with `n = 1`,
`Type() = pktTypeFromByte(b)` and a body of length 0. -/
theorem ReadFrom_only_identifier_mandatory (kept : KeptOnError)
    (b : Byte) (hb : isIdByte b) (prior : Packet) :
    ((prior.ReadFrom kept (.ofBytes [])).err = some .EOF
        ∧ (prior.ReadFrom kept (.ofBytes [])).n = 0
        ∧ ∀ e : UnexpectedPacketTypeError,
            (prior.ReadFrom kept (.ofBytes [])).err ≠ some (.unexpectedPacketType e))
      ∧ (prior.ReadFrom kept (.ofBytes [b])).err = none
      ∧ (prior.ReadFrom kept (.ofBytes [b])).n = 1
      ∧ (prior.ReadFrom kept (.ofBytes [b])).p.Type = pktTypeFromByte b
      ∧ (prior.ReadFrom kept (.ofBytes [b])).p.Body.bytes = []
      ∧ (prior.ReadFrom kept (.ofBytes [b])).p.Body.len = 0 := by
  simp only [Reader.ofBytes, ReadFrom_nil, ReadFrom_cons_of_isIdByte kept _ b hb, Packet.Type,
    Packet.Body, Slice.len, Slice.bytes_resliceZero_append]
  simp

/-- Witness of C9 at the one-byte frame `['1']`. -/
theorem ReadFrom_only_identifier_mandatory_witness :
    isIdByte 0x31
      ∧ (Packet.ReadFrom keepRead ⟨MESSAGE, ⟨[5, 6], []⟩⟩ (.ofBytes [0x31])).err = none
      ∧ (Packet.ReadFrom keepRead ⟨MESSAGE, ⟨[5, 6], []⟩⟩ (.ofBytes [0x31])).n = 1
      ∧ (Packet.ReadFrom keepRead ⟨MESSAGE, ⟨[5, 6], []⟩⟩ (.ofBytes [0x31])).p.Type
          = pktTypeFromByte 0x31
      ∧ (Packet.ReadFrom keepRead ⟨MESSAGE, ⟨[5, 6], []⟩⟩ (.ofBytes [0x31])).p.Body.bytes = []
      ∧ (Packet.ReadFrom keepRead ⟨MESSAGE, ⟨[5, 6], []⟩⟩ (.ofBytes [0x31])).p.Body.len = 0 :=
  ⟨by decide,
    (ReadFrom_only_identifier_mandatory keepRead 0x31 (by decide) ⟨MESSAGE, ⟨[5, 6], []⟩⟩).2⟩

/-- C10: buffer reuse does not leak prior content.  For every source and any
two receiving packets, whatever their prior kinds and prior bodies,
`ReadFrom` returns the same `n` and the same error and leaves the source in
the same state; when it succeeds, both packets have the same `Type()` and the
same body bytes, which are exactly the bytes the source held after the
identifier byte, their number being `n - 1`: no byte of a prior body is part
of the new body. -/
theorem ReadFrom_no_leak (kept : KeptOnError) (r : Reader) (p₁ p₂ : Packet) :
    (p₁.ReadFrom kept r).n = (p₂.ReadFrom kept r).n
      ∧ (p₁.ReadFrom kept r).err = (p₂.ReadFrom kept r).err
      ∧ (p₁.ReadFrom kept r).r = (p₂.ReadFrom kept r).r
      ∧ ((p₁.ReadFrom kept r).err = none →
          (p₁.ReadFrom kept r).p.Type = (p₂.ReadFrom kept r).p.Type
            ∧ (p₁.ReadFrom kept r).p.Body.bytes = (p₂.ReadFrom kept r).p.Body.bytes
            ∧ (p₁.ReadFrom kept r).p.Body.bytes = r.data.tail
            ∧ (p₁.ReadFrom kept r).p.Body.len = r.data.length - 1
            ∧ ((p₁.ReadFrom kept r).p.Body.len : Int) = (p₁.ReadFrom kept r).n - 1) := by
  obtain ⟨data, fin⟩ := r
  cases data with
  | nil => simp [ReadFrom_nil]
  | cons b B =>
    by_cases hb : isIdByte b
    · simp only [ReadFrom_cons_of_isIdByte kept _ b hb, Packet.Type, Packet.Body, Slice.len,
        Slice.bytes_resliceZero_append]
      by_cases hf : fin = .EOF
      · subst hf; simp
      · simp [hf]
    · simp [ReadFrom_cons_of_not_isIdByte kept _ b hb]

/-- Witness of C10: the frame `['4', 'h', 'i']` decoded into a fresh packet and
into a packet that holds the six-byte body of an earlier decode. -/
theorem ReadFrom_no_leak_witness :
    (Packet.ReadFrom keepRead ⟨OPEN, .nil⟩ (.ofBytes [0x34, 0x68, 0x69])).err = none
      ∧ (Packet.ReadFrom keepRead ⟨OPEN, .nil⟩ (.ofBytes [0x34, 0x68, 0x69])).p.Body.bytes
        = (Packet.ReadFrom keepRead ⟨PONG, ⟨[1, 2, 3, 4, 5, 6], [7]⟩⟩
            (.ofBytes [0x34, 0x68, 0x69])).p.Body.bytes
      ∧ (Packet.ReadFrom keepRead ⟨PONG, ⟨[1, 2, 3, 4, 5, 6], [7]⟩⟩
            (.ofBytes [0x34, 0x68, 0x69])).p.Body = ⟨[0x68, 0x69], [3, 4, 5, 6, 7]⟩ :=
  ⟨by decide,
    ((ReadFrom_no_leak keepRead (.ofBytes [0x34, 0x68, 0x69]) ⟨OPEN, .nil⟩
      ⟨PONG, ⟨[1, 2, 3, 4, 5, 6], [7]⟩⟩).2.2.2 (by decide)).2.1,
    by decide⟩

/-! ## Round trip (C1) -/

/-- C1: round trip.  For every legal kind `K`, every body and every prior state
of the receiving packet, `WriteTo` of `Packet{K, body}` into a fresh sink
that accepts every write returns `n = 1 + len(body)` with a nil error, and
`ReadFrom` over exactly the bytes it wrote, followed by a clean end of stream,
returns a nil error and `n = 1 + len(body)`, consumes the whole source, and
leaves a packet whose `Type()` is `K` and whose body bytes are those of
`body`. -/
theorem WriteTo_ReadFrom_roundtrip (kept : KeptOnError)
    (K : PacketType) (hK : K ∈ legalKinds) (body : Slice)
    (prior : Packet) :
    (Packet.WriteTo ⟨K, body⟩ .accepting).1 = .returned ⟨1 + (body.len : Int), none⟩
      ∧ (prior.ReadFrom kept (.ofBytes (Packet.WriteTo ⟨K, body⟩ .accepting).2.out)).err = none
      ∧ (prior.ReadFrom kept (.ofBytes (Packet.WriteTo ⟨K, body⟩ .accepting).2.out)).n
          = 1 + (body.len : Int)
      ∧ (prior.ReadFrom kept (.ofBytes (Packet.WriteTo ⟨K, body⟩ .accepting).2.out)).r.data = []
      ∧ (prior.ReadFrom kept (.ofBytes (Packet.WriteTo ⟨K, body⟩ .accepting).2.out)).p.Type = K
      ∧ (prior.ReadFrom kept (.ofBytes (Packet.WriteTo ⟨K, body⟩ .accepting).2.out)).p.Body.bytes
          = body.bytes := by
  obtain ⟨id, hid, hb, hinv, _⟩ := ID_of_legal K hK
  have hw := WriteTo_of_ID ⟨K, body⟩ id hid [] []
  simp only [Writer.accepting, hw, Reader.ofBytes, List.nil_append,
    ReadFrom_cons_of_isIdByte kept _ id hb, Packet.Type, Packet.Body,
    Slice.bytes_resliceZero_append, hinv, Slice.len]
  simp

/-- Witness of C1: `Packet{MESSAGE, "hi"}` written, then read back into a
packet that held the kind CLOSE and a three-byte body. -/
theorem WriteTo_ReadFrom_roundtrip_witness :
    MESSAGE ∈ legalKinds
      ∧ (Packet.WriteTo ⟨MESSAGE, .ofList [0x68, 0x69]⟩ .accepting).1
          = .returned ⟨3, none⟩
      ∧ (Packet.ReadFrom keepRead ⟨CLOSE, .ofList [1, 2, 3]⟩
          (.ofBytes (Packet.WriteTo ⟨MESSAGE, .ofList [0x68, 0x69]⟩ .accepting).2.out)).p.Type
          = MESSAGE
      ∧ (Packet.ReadFrom keepRead ⟨CLOSE, .ofList [1, 2, 3]⟩
          (.ofBytes (Packet.WriteTo ⟨MESSAGE, .ofList [0x68, 0x69]⟩
            .accepting).2.out)).p.Body.bytes = [0x68, 0x69] :=
  ⟨by decide,
    (WriteTo_ReadFrom_roundtrip keepRead MESSAGE (by decide) (.ofList [0x68, 0x69])
      ⟨CLOSE, .ofList [1, 2, 3]⟩).1,
    (WriteTo_ReadFrom_roundtrip keepRead MESSAGE (by decide) (.ofList [0x68, 0x69])
      ⟨CLOSE, .ofList [1, 2, 3]⟩).2.2.2.2.1,
    (WriteTo_ReadFrom_roundtrip keepRead MESSAGE (by decide) (.ofList [0x68, 0x69])
      ⟨CLOSE, .ofList [1, 2, 3]⟩).2.2.2.2.2⟩

/-! ## Validity of a decoded kind (C11) -/

/-- A decode that returns a nil error has read an identifier byte and reached
a clean end of stream. -/
theorem ReadFrom_err_none (kept : KeptOnError)
    (p : Packet) (r : Reader) (h : (p.ReadFrom kept r).err = none) :
    ∃ b B, isIdByte b ∧ r = ⟨b :: B, .EOF⟩ := by
  obtain ⟨data, fin⟩ := r
  cases data with
  | nil => simp [ReadFrom_nil] at h
  | cons b B =>
    by_cases hb : isIdByte b
    · rw [ReadFrom_cons_of_isIdByte kept p b hb] at h
      by_cases hf : fin = .EOF
      · exact ⟨b, B, hb, by rw [hf]⟩
      · simp [hf] at h
    · simp [ReadFrom_cons_of_not_isIdByte kept p b hb] at h

/-- C11: a decoded packet always has a valid kind.  For every source and every
prior state of the receiving packet, if `ReadFrom` returns a nil error then
the packet's `Type()` is one of the seven legal kinds and is not the sentinel
`unknownType`. -/
theorem ReadFrom_valid_kind (kept : KeptOnError) (prior : Packet) (r : Reader)
    (h : (prior.ReadFrom kept r).err = none) :
    (prior.ReadFrom kept r).p.Type ∈ legalKinds ∧ (prior.ReadFrom kept r).p.Type ≠ unknownType := by
  obtain ⟨b, B, hb, rfl⟩ := ReadFrom_err_none kept prior r h
  rw [ReadFrom_cons_of_isIdByte kept prior b hb]
  exact ⟨(ID_pktTypeFromByte b hb).1,
    fun e => (pktTypeFromByte_eq_unknownType_iff b).1 e hb⟩

/-- Witness of C11: the frame `['5', 1]` decoded into a packet whose prior kind
is the sentinel. -/
theorem ReadFrom_valid_kind_witness :
    (Packet.ReadFrom keepRead ⟨unknownType, .nil⟩ (.ofBytes [0x35, 1])).err = none
      ∧ (Packet.ReadFrom keepRead ⟨unknownType, .nil⟩ (.ofBytes [0x35, 1])).p.Type ∈ legalKinds
      ∧ (Packet.ReadFrom keepRead ⟨unknownType, .nil⟩ (.ofBytes [0x35, 1])).p.Type ≠ unknownType :=
  ⟨by decide,
    ReadFrom_valid_kind keepRead ⟨unknownType, .nil⟩ (.ofBytes [0x35, 1]) (by decide)⟩

/-! ## Encoding: the sentinel and failing sinks (C12, C13) -/

/-- Writing a packet whose kind makes `ID` panic. -/
theorem WriteTo_of_ID_panicked (p : Packet) (v : UnexpectedPacketTypeError)
    (h : p.typ.ID = .panicked v) (w : Writer) : p.WriteTo w = (.panicked v, w) := by
  simp [Packet.WriteTo, h]

/-- C12: encode refuses the sentinel.  For every body and every sink, `WriteTo`
on a packet whose kind is `unknownType` fails (it panics) with an
`UnexpectedPacketTypeError` carrying that kind, and the sink is left exactly
as it was: no byte is written and no write is attempted, neither for the
identifier nor for the body. -/
theorem WriteTo_refuses_sentinel (body : Slice) (w : Writer) :
    Packet.WriteTo ⟨unknownType, body⟩ w = (.panicked ⟨unknownType⟩, w)
      ∧ (Packet.WriteTo ⟨unknownType, body⟩ w).2.out = w.out
      ∧ (Packet.WriteTo ⟨unknownType, body⟩ w).2.calls = w.calls := by
  have hid : unknownType.ID = .panicked ⟨unknownType⟩ := by decide
  rw [WriteTo_of_ID_panicked ⟨unknownType, body⟩ ⟨unknownType⟩ hid w]
  exact ⟨rfl, rfl, rfl⟩

/-- Every `Write` call is recorded, whatever the sink answers. -/
theorem Writer.calls_Write (w : Writer) (p : List Byte) :
    (w.Write p).2.calls = w.calls ++ [p] := by
  unfold Writer.Write
  split <;> rfl

/-- C13: sink failures are surfaced unchanged with the count of what was
written.  For a packet with a legal kind `K`: if the write of the identifier
byte returns the error `e`, `WriteTo` returns `(0, e)` and the only write
attempted on the sink is that of the identifier; if the identifier is written
without error and the write of the body returns `(n0, e)` with `e` an error,
`WriteTo` returns `(1 + n0, e)`, `e` being the sink's own error value, and
the writes attempted are exactly these two. -/
theorem WriteTo_sink_failure (K : PacketType) (hK : K ∈ legalKinds) (body : Slice)
    (w : Writer) :
    ∃ id : Byte, K.ID = .returned id
      ∧ (∀ e : GoError, (w.Write [id]).1.2 = some e →
          Packet.WriteTo ⟨K, body⟩ w = (.returned ⟨0, some e⟩, (w.Write [id]).2)
            ∧ (Packet.WriteTo ⟨K, body⟩ w).2.calls = w.calls ++ [[id]])
      ∧ (∀ (n0 : Nat) (e : GoError), (w.Write [id]).1.2 = none →
          ((w.Write [id]).2.Write body.bytes).1 = (n0, some e) →
          Packet.WriteTo ⟨K, body⟩ w
              = (.returned ⟨1 + (n0 : Int), some e⟩,
                  ((w.Write [id]).2.Write body.bytes).2)
            ∧ (Packet.WriteTo ⟨K, body⟩ w).2.calls = w.calls ++ [[id], body.bytes]) := by
  obtain ⟨id, hid, _⟩ := ID_of_legal K hK
  refine ⟨id, hid, ?_, ?_⟩
  · intro e he
    have hw : Packet.WriteTo ⟨K, body⟩ w = (.returned ⟨0, some e⟩, (w.Write [id]).2) := by
      simp [Packet.WriteTo, hid, WriteByte, he]
    exact ⟨hw, by rw [hw]; exact Writer.calls_Write w [id]⟩
  · intro n0 e h1 h2
    have hn : ((w.Write [id]).2.Write body.bytes).1.1 = n0 := by rw [h2]
    have he : ((w.Write [id]).2.Write body.bytes).1.2 = some e := by rw [h2]
    have hw : Packet.WriteTo ⟨K, body⟩ w
        = (.returned ⟨1 + (n0 : Int), some e⟩, ((w.Write [id]).2.Write body.bytes).2) := by
      simp [Packet.WriteTo, hid, WriteByte, h1, hn, he]
    refine ⟨hw, ?_⟩
    rw [hw]
    simp [Writer.calls_Write]

/-- Witness of C13: a PING packet with body `[1, 2, 3]` written to a sink that
rejects the first write with error 7, and to a sink that accepts the first
write and then takes two bytes before failing with error 9. -/
theorem WriteTo_sink_failure_witness :
    PING ∈ legalKinds
      ∧ Packet.WriteTo ⟨PING, .ofList [1, 2, 3]⟩ ⟨[], [], [some (0, .other 7)]⟩
          = (.returned ⟨0, some (.other 7)⟩, ⟨[], [[0x32]], []⟩)
      ∧ Packet.WriteTo ⟨PING, .ofList [1, 2, 3]⟩ ⟨[], [], [none, some (2, .other 9)]⟩
          = (.returned ⟨3, some (.other 9)⟩, ⟨[0x32, 1, 2], [[0x32], [1, 2, 3]], []⟩) := by
  obtain ⟨id, hid, h1, _⟩ :=
    WriteTo_sink_failure PING (by decide) (.ofList [1, 2, 3]) ⟨[], [], [some (0, .other 7)]⟩
  have e : id = 0x32 := by
    have h' : PING.ID = .returned 0x32 := by decide
    rw [h'] at hid
    injection hid with hid
    exact hid.symm
  subst e
  exact ⟨by decide, (h1 (.other 7) (by decide)).1.trans (by decide), by decide⟩

/-! ## Diagnostic strings (C14, C15) -/

/-- The fallback branch of `PacketType.String`. -/
theorem String_of_not_legal (t : PacketType) (h : t ∉ legalKinds) :
    t.String = "PacketType(" ++ fmtDecimal t.val ++ ")" := by
  simp only [legalKinds, List.mem_cons, List.mem_singleton, List.not_mem_nil, or_false,
    not_or] at h
  obtain ⟨h0, h1, h2, h3, h4, h5, h6⟩ := h
  simp [PacketType.String, h0, h1, h2, h3, h4, h5, h6]

/-- The fallback text is longer than every kind name. -/
theorem fallback_length (s : String) : 12 ≤ ("PacketType(" ++ s ++ ")").length := by
  have h1 : "PacketType(".length = 11 := by decide
  have h2 : ")".length = 1 := by decide
  rw [String.length_append, String.length_append, h1, h2]
  omega

/-- The name of a legal kind has at most seven characters. -/
theorem String_length_of_legal (K : PacketType) (hK : K ∈ legalKinds) :
    K.String.length ≤ 7 := by
  simp only [legalKinds, List.mem_cons, List.mem_singleton, List.not_mem_nil, or_false] at hK
  rcases hK with rfl | rfl | rfl | rfl | rfl | rfl | rfl <;> decide

/-- C14: `Packet.String()` never exposes body content.  For every packet it is
`"Packet(" ++ Type().String() ++ ", <" ++ decimal(len(body)) ++ " bytes>)"`,
`"Packet(MESSAGE, <12 bytes>)"` for a MESSAGE packet with a 12-byte body, so
two packets with the same kind and the same body length have the same
`String()`, whatever their body bytes are. -/
theorem Packet_String_hides_body (p : Packet) :
    p.String = "Packet(" ++ p.Type.String ++ ", <" ++ fmtDecimal (p.Body.len : Int)
        ++ " bytes>)"
      ∧ (∀ q : Packet, q.Type = p.Type → q.Body.len = p.Body.len → q.String = p.String)
      ∧ Packet.String ⟨MESSAGE, .ofList [1, 2, 3, 4, 5, 6, 7, 8, 9, 10, 11, 12]⟩
          = "Packet(MESSAGE, <12 bytes>)"
      ∧ Packet.String ⟨MESSAGE, .ofList [0, 0, 0, 0, 0, 0, 0, 0, 0, 0, 0, 0]⟩
          = "Packet(MESSAGE, <12 bytes>)" := by
  refine ⟨rfl, ?_, by decide, by decide⟩
  intro q hT hL
  simp only [Packet.Type, Packet.Body] at hT hL
  simp only [Packet.String, hT, hL]

/-- Witness of C14: two PONG packets with different three-byte bodies. -/
theorem Packet_String_hides_body_witness :
    Packet.String ⟨PONG, ⟨[1, 2, 3], [4]⟩⟩ = Packet.String ⟨PONG, ⟨[7, 8, 9], []⟩⟩ :=
  (Packet_String_hides_body ⟨PONG, ⟨[7, 8, 9], []⟩⟩).2.1 ⟨PONG, ⟨[1, 2, 3], [4]⟩⟩ rfl rfl

/-- C15: `PacketType.String()` returns the names "OPEN", "CLOSE", "PING",
"PONG", "MESSAGE", "UPGRADE", "NOOP" for the seven legal kinds, these names
being pairwise distinct; for every other value `v`, the sentinel -1 included,
it returns `"PacketType(v)"` with `v` as a signed decimal, which is none of
the seven names. -/
theorem PacketType_String_names :
    (OPEN.String = "OPEN" ∧ CLOSE.String = "CLOSE" ∧ PING.String = "PING"
        ∧ PONG.String = "PONG" ∧ MESSAGE.String = "MESSAGE"
        ∧ UPGRADE.String = "UPGRADE" ∧ NOOP.String = "NOOP")
      ∧ (legalKinds.map PacketType.String).Nodup
      ∧ (∀ t : PacketType, t ∉ legalKinds →
          t.String = "PacketType(" ++ fmtDecimal t.val ++ ")"
            ∧ ∀ K ∈ legalKinds, t.String ≠ K.String)
      ∧ unknownType.String = "PacketType(-1)"
      ∧ PacketType.String ⟨0⟩ = "PacketType(0)"
      ∧ PacketType.String ⟨-128⟩ = "PacketType(-128)"
      ∧ PacketType.String ⟨127⟩ = "PacketType(127)" := by
  refine ⟨by decide, by decide, ?_, by decide, by decide, by decide, by decide⟩
  intro t ht
  refine ⟨String_of_not_legal t ht, ?_⟩
  intro K hK e
  have h1 := fallback_length (fmtDecimal t.val)
  have h2 := String_length_of_legal K hK
  rw [← String_of_not_legal t ht, e] at h1
  omega

/-- Witness of C15 at the value 8, compared with the kind NOOP. -/
theorem PacketType_String_names_witness :
    (⟨8⟩ : PacketType) ∉ legalKinds
      ∧ PacketType.String ⟨8⟩ = "PacketType(" ++ fmtDecimal 8 ++ ")"
      ∧ PacketType.String ⟨8⟩ ≠ NOOP.String :=
  ⟨by decide, (PacketType_String_names.2.2.1 ⟨8⟩ (by decide)).1,
    (PacketType_String_names.2.2.1 ⟨8⟩ (by decide)).2 NOOP (by decide)⟩

/-! ## The domain of `ID` (C16) -/

/-- The legal kinds are the values from 1 to 7. -/
theorem mem_legalKinds_iff (t : PacketType) : t ∈ legalKinds ↔ 1 ≤ t.val ∧ t.val ≤ 7 := by
  obtain ⟨v⟩ := t
  simp only [legalKinds, List.mem_cons, List.mem_singleton, List.not_mem_nil, or_false,
    OPEN, CLOSE, PING, PONG, MESSAGE, UPGRADE, NOOP, PacketType.mk.injEq]
  omega

/-- Outside the legal kinds `ID` panics with the value it was called on. -/
theorem ID_of_not_legal (t : PacketType) (h : t ∉ legalKinds) : t.ID = .panicked ⟨t⟩ := by
  simp only [legalKinds, List.mem_cons, List.mem_singleton, List.not_mem_nil, or_false,
    not_or] at h
  obtain ⟨h0, h1, h2, h3, h4, h5, h6⟩ := h
  simp [PacketType.ID, h0, h1, h2, h3, h4, h5, h6]

/-- C16: `ID` succeeds exactly on the seven legal kinds.  `OPEN = iota` stands
on the second line of the constant block, so the legal kinds have the values
1 to 7 (OPEN = 1, NOOP = 7); for every value `t`, `ID(t)` returns a byte if
and only if `1 <= t <= 7`, and panics with `t` otherwise.  The sentinel -1
and the zero value `PacketType(0)` both make `ID` fail; the kind of a
zero-value `Packet` is neither legal nor the sentinel, and `WriteTo` on it
fails and leaves the sink as it was. -/
theorem ID_succeeds_iff :
    (OPEN.val = 1 ∧ CLOSE.val = 2 ∧ PING.val = 3 ∧ PONG.val = 4 ∧ MESSAGE.val = 5
        ∧ UPGRADE.val = 6 ∧ NOOP.val = 7)
      ∧ (∀ t : PacketType, (∃ b : Byte, t.ID = .returned b) ↔ 1 ≤ t.val ∧ t.val ≤ 7)
      ∧ (∀ t : PacketType, ¬ (1 ≤ t.val ∧ t.val ≤ 7) → t.ID = .panicked ⟨t⟩)
      ∧ unknownType.ID = .panicked ⟨unknownType⟩
      ∧ PacketType.ID ⟨0⟩ = .panicked ⟨⟨0⟩⟩
      ∧ (⟨0⟩ : PacketType) ∉ legalKinds ∧ (⟨0⟩ : PacketType) ≠ unknownType
      ∧ ∀ w : Writer, Packet.WriteTo ⟨⟨0⟩, .nil⟩ w = (.panicked ⟨⟨0⟩⟩, w) := by
  refine ⟨by decide, ?_, ?_, by decide, by decide, by decide, by decide, ?_⟩
  · intro t
    constructor
    · rintro ⟨b, hb⟩
      by_contra hn
      rw [ID_of_not_legal t (fun h => hn ((mem_legalKinds_iff t).1 h))] at hb
      exact Outcome.noConfusion hb
    · intro h
      obtain ⟨b, hb, _⟩ := ID_of_legal t ((mem_legalKinds_iff t).2 h)
      exact ⟨b, hb⟩
  · intro t hn
    exact ID_of_not_legal t (fun h => hn ((mem_legalKinds_iff t).1 h))
  · intro w
    have hid : PacketType.ID ⟨0⟩ = .panicked ⟨⟨0⟩⟩ := by decide
    exact WriteTo_of_ID_panicked ⟨⟨0⟩, .nil⟩ ⟨⟨0⟩⟩ hid w

/-- Witness of C16 at the value 8, just above NOOP. -/
theorem ID_succeeds_iff_witness :
    ¬ (1 ≤ (⟨8⟩ : PacketType).val ∧ (⟨8⟩ : PacketType).val ≤ 7)
      ∧ PacketType.ID ⟨8⟩ = .panicked ⟨⟨8⟩⟩ :=
  ⟨by decide, ID_succeeds_iff.2.2.1 ⟨8⟩ (by decide)⟩

/-! ## Effect of a failed decode on the receiving packet (C17) -/

/-- C17: a rejected decode leaves the receiving packet untouched.  For every
prior state of the packet and every source that has no byte left or whose
first byte is outside '0'..'6', `ReadFrom` returns an error and the packet's
`Type()` and `Body()` are what they were before the call. -/
theorem ReadFrom_rejected_leaves_packet (kept : KeptOnError) (prior : Packet) (r : Reader)
    (h : r.data = [] ∨ ∃ b rest, r.data = b :: rest ∧ ¬ isIdByte b) :
    (prior.ReadFrom kept r).err ≠ none
      ∧ (prior.ReadFrom kept r).p.Type = prior.Type
      ∧ (prior.ReadFrom kept r).p.Body = prior.Body
      ∧ (prior.ReadFrom kept r).p = prior := by
  obtain ⟨data, fin⟩ := r
  rcases h with h | ⟨b, rest, h, hb⟩
  · simp only at h
    subst h
    rw [ReadFrom_nil]
    exact ⟨by simp, rfl, rfl, rfl⟩
  · simp only at h
    subst h
    rw [ReadFrom_cons_of_not_isIdByte kept prior b hb]
    exact ⟨by simp, rfl, rfl, rfl⟩

/-- Witness of C17: the input `['9', 1, 2]` and a MESSAGE packet holding a
two-byte body. -/
theorem ReadFrom_rejected_leaves_packet_witness :
    (Packet.ReadFrom keepRead ⟨MESSAGE, ⟨[5, 6], [7]⟩⟩ (.ofBytes [0x39, 1, 2])).err ≠ none
      ∧ (Packet.ReadFrom keepRead ⟨MESSAGE, ⟨[5, 6], [7]⟩⟩ (.ofBytes [0x39, 1, 2])).p
          = ⟨MESSAGE, ⟨[5, 6], [7]⟩⟩ :=
  ⟨(ReadFrom_rejected_leaves_packet keepRead ⟨MESSAGE, ⟨[5, 6], [7]⟩⟩ (.ofBytes [0x39, 1, 2])
      (Or.inr ⟨0x39, [1, 2], rfl, by decide⟩)).1,
    (ReadFrom_rejected_leaves_packet keepRead ⟨MESSAGE, ⟨[5, 6], [7]⟩⟩ (.ofBytes [0x39, 1, 2])
      (Or.inr ⟨0x39, [1, 2], rfl, by decide⟩)).2.2.2⟩

/-- A body read that fails.  For every byte `b` in '0'..'6', if the source
yields `b`, then the bytes `B`, then fails with an error `e` other than a
clean end of stream, `ReadFrom` returns `e` itself, the packet's `Type()` is
already `pktTypeFromByte(b)`, and `n` is one more than the length of the body
it is left with; that body holds what `utils.ReadAllTo` keeps of `B`. -/
theorem ReadFrom_of_failed_body_read (kept : KeptOnError) (b : Byte) (hb : isIdByte b)
    (B : List Byte) (e : GoError) (he : e ≠ .EOF) (prior : Packet) :
    (prior.ReadFrom kept ⟨b :: B, e⟩).err = some e
      ∧ (prior.ReadFrom kept ⟨b :: B, e⟩).p.Type = pktTypeFromByte b
      ∧ (prior.ReadFrom kept ⟨b :: B, e⟩).p.Body.bytes = kept B e
      ∧ (prior.ReadFrom kept ⟨b :: B, e⟩).n
          = 1 + ((prior.ReadFrom kept ⟨b :: B, e⟩).p.Body.len : Int) := by
  rw [ReadFrom_cons_of_isIdByte kept prior b hb]
  simp [he, Packet.Type, Packet.Body, Slice.len, Slice.bytes_resliceZero_append]

/-- The count and the body after a failed body read differ with what
`utils.ReadAllTo` keeps: on the source that yields `['4', 'h']` and then
fails, `n = 2` and the body is `['h']` when the bytes read are kept, `n = 1`
and the body is empty when they are not. -/
theorem ReadFrom_of_failed_body_read_depends_on_kept :
    (Packet.ReadFrom keepRead ⟨OPEN, .ofList [1, 2, 3, 4]⟩ ⟨[0x34, 0x68], .other 3⟩).n = 2
      ∧ (Packet.ReadFrom keepRead ⟨OPEN, .ofList [1, 2, 3, 4]⟩
          ⟨[0x34, 0x68], .other 3⟩).p.Body.bytes = [0x68]
      ∧ (Packet.ReadFrom keepNothing ⟨OPEN, .ofList [1, 2, 3, 4]⟩
          ⟨[0x34, 0x68], .other 3⟩).n = 1
      ∧ (Packet.ReadFrom keepNothing ⟨OPEN, .ofList [1, 2, 3, 4]⟩
          ⟨[0x34, 0x68], .other 3⟩).p.Body.bytes = [] := by
  decide

end Engine
